import Mathlib

/-!
Shallow embedding of the validator pipeline of the amazon-cloudwatch-agent-test
repository: the dimension factory (test/metric/dimension/provider.go), the
CloudWatch Logs fetcher and validator (internal/awsservice/cloudwatchlogs.go),
and the swap and mem metric runners (metric_value_benchmark package).

Machine pointers (Go *string) are modelled as Option String; a Go nil-pointer
dereference is a failure, so functions whose execution can dereference nil
return an Option and yield none exactly on the inputs where the Go code
panics. Remote services (the CloudWatch backend) are modelled as explicit
oracle parameters, and the unbounded Go for-loop is modelled with fuel,
where a result of none stands for a run that has not terminated within the
given fuel.
-/

/-- A CloudWatch dimension (aws-sdk-go-v2 types.Dimension): two nullable
string fields, Name and Value. The Go zero value has both fields nil. -/
structure Dimension where
  Name : Option String
  Value : Option String
deriving DecidableEq

/-- The Go zero value of types.Dimension: both pointer fields nil. -/
def emptyDimension : Dimension := ⟨none, none⟩

/-- provider.go: type ExpectedDimensionValue struct with a nullable Value. -/
structure ExpectedDimensionValue where
  Value : Option String
deriving DecidableEq

/-- provider.go IsKnown: the Go body is, literally, return d.Value == nil. -/
def ExpectedDimensionValue.IsKnown (d : ExpectedDimensionValue) : Bool :=
  d.Value == none

/-- provider.go UnknownDimensionValue: returns the zero value (nil Value). -/
def UnknownDimensionValue : ExpectedDimensionValue :=
  ⟨none⟩

/-- provider.go: type Instruction struct, a key with an expected value. -/
structure Instruction where
  Key : String
  Value : ExpectedDimensionValue
deriving DecidableEq

/-- An IProvider is observed by the factory only through GetDimension, so a
provider is modelled as that function. -/
abbrev ProviderFun := Instruction → Dimension

/-- provider.go: type Factory struct, holding the applicable providers. -/
structure Factory where
  providers : List ProviderFun

/-- The provider loop of Factory.executeInstruction: try each provider in
order and return the first dimension different from the zero value. -/
def executeInstructionAux (instruction : Instruction) :
    List ProviderFun → Dimension
  | [] => emptyDimension
  | p :: ps =>
    let dim := p instruction
    if dim ≠ emptyDimension then dim
    else executeInstructionAux instruction ps

/-- provider.go Factory.executeInstruction: loops over f.providers, returns
the first non-zero GetDimension result, and the zero value if none. -/
def Factory.executeInstruction (f : Factory) (instruction : Instruction) :
    Dimension :=
  executeInstructionAux instruction f.providers

/-- The loop body of Factory.GetDimensions, including the two log.Printf
calls, whose arguments dereference dim.Name and dim.Value: evaluating those
arguments on a nil pointer panics, which is modelled by returning none. -/
def getDimensionsAux (f : Factory) :
    List Instruction → List Dimension → List Instruction →
    Option (List Dimension × List Instruction)
  | [], resultDimensions, unfulfilledInstructions =>
    some (resultDimensions, unfulfilledInstructions)
  | instruction :: rest, resultDimensions, unfulfilledInstructions =>
    let dim := f.executeInstruction instruction
    if dim ≠ emptyDimension then
      match dim.Name, dim.Value with
      | some _, some _ =>
        getDimensionsAux f rest (resultDimensions ++ [dim])
          unfulfilledInstructions
      | _, _ => none
    else
      match dim.Name, dim.Value with
      | some _, some _ =>
        getDimensionsAux f rest resultDimensions
          (unfulfilledInstructions ++ [instruction])
      | _, _ => none

/-- provider.go Factory.GetDimensions, modelled faithfully: for each
instruction it executes the instruction, appends the dimension to the
resolved list or the instruction to the unfulfilled list, and logs the
dimension by dereferencing both of its fields; a nil-field dereference in
either log call is a panic, modelled as none. -/
def Factory.GetDimensions (f : Factory) (instructions : List Instruction) :
    Option (List Dimension × List Instruction) :=
  getDimensionsAux f instructions [] []

/-- The data flow of Factory.GetDimensions with the two log.Printf calls
elided: the same loop and the same appends, without the field dereferences
performed only to build the log messages. -/
def getDimensionsNoLogAux (f : Factory) :
    List Instruction → List Dimension → List Instruction →
    List Dimension × List Instruction
  | [], resultDimensions, unfulfilledInstructions =>
    (resultDimensions, unfulfilledInstructions)
  | instruction :: rest, resultDimensions, unfulfilledInstructions =>
    let dim := f.executeInstruction instruction
    if dim ≠ emptyDimension then
      getDimensionsNoLogAux f rest (resultDimensions ++ [dim])
        unfulfilledInstructions
    else
      getDimensionsNoLogAux f rest resultDimensions
        (unfulfilledInstructions ++ [instruction])

/-- Factory.GetDimensions with the logging statements elided: the outputs
the source computes, whenever the source returns at all. -/
def Factory.GetDimensionsNoLog (f : Factory)
    (instructions : List Instruction) :
    List Dimension × List Instruction :=
  getDimensionsNoLogAux f instructions [] []

/-! ## CloudWatch Logs fetcher (internal/awsservice/cloudwatchlogs.go) -/

/-- cloudwatchlogs.go: const allowedRetries = 5. -/
def allowedRetries : Nat := 5

/-- The part of the GetLogEvents response the fetcher reads: the event
messages (each dereferenced to a string) and the next forward token. -/
structure GetLogEventsOutput where
  events : List String
  nextForwardToken : Option String
deriving DecidableEq

/-- Outcome of one GetLogEvents call: a response, a
ResourceNotFoundException, or any other error. -/
inductive CallResult where
  | ok (out : GetLogEventsOutput)
  | rnfErr
  | otherErr
deriving DecidableEq

/-- The backend oracle: the result of the GetLogEvents call with a given
zero-based call index (the loop variable attempts before its increment) and
the NextToken field the request carries. -/
abbrev Backend := Nat → Option String → CallResult

/-- Observable trace of one run of the getLogsSince loop: the NextToken
carried by each call in order, the event-message page of each successful
call in order, and the number of one-minute sleeps performed. -/
structure LoopTrace where
  calls : List (Option String)
  pages : List (List String)
  sleeps : Nat
deriving DecidableEq

/-- Result of getLogsSince: the collected log strings with or without an
accompanying error (Go returns the logs collected so far in both cases). -/
inductive LogsOutcome where
  | success (logs : List String)
  | failure (logs : List String)
deriving DecidableEq

/-- Prepend one call (and optionally a page and a sleep) to the trace of the
rest of a run. -/
def tracePrepend (c : Option String) (slp : Nat) (pgs : List (List String))
    (r : LoopTrace × Option LogsOutcome) : LoopTrace × Option LogsOutcome :=
  (⟨c :: r.1.calls, pgs ++ r.1.pages, slp + r.1.sleeps⟩, r.2)

/-- The for-loop of getLogsSince, with explicit state: foundLogs is the
accumulator, nextToken is the Go local of that name (the previous response's
NextForwardToken), paramsToken is the sticky params.NextToken field (only
overwritten when nextToken is non-nil), and attempts counts every call made
so far. The loop retries a ResourceNotFoundException while the post-call
attempts count is at most allowedRetries (sleeping one minute), fails on any
other error, and breaks only when nextToken is non-nil and the response's
NextForwardToken is non-nil and equal to it. Fuel bounds the unbounded Go
loop; none means the run did not finish within the fuel. -/
def getLogsLoop (bk : Backend) :
    Nat → List String → Option String → Option String → Nat →
    LoopTrace × Option LogsOutcome
  | 0, _, _, _, _ => (⟨[], [], 0⟩, none)
  | fuel + 1, foundLogs, nextToken, paramsToken, attempts =>
    let reqToken := if nextToken.isSome then nextToken else paramsToken
    match bk attempts reqToken with
    | .rnfErr =>
      if attempts + 1 ≤ allowedRetries then
        tracePrepend reqToken 1 []
          (getLogsLoop bk fuel foundLogs nextToken reqToken (attempts + 1))
      else
        (⟨[reqToken], [], 0⟩, some (.failure foundLogs))
    | .otherErr => (⟨[reqToken], [], 0⟩, some (.failure foundLogs))
    | .ok out =>
      if nextToken.isSome && out.nextForwardToken.isSome &&
          (out.nextForwardToken == nextToken) then
        (⟨[reqToken], [out.events], 0⟩,
          some (.success (foundLogs ++ out.events)))
      else
        tracePrepend reqToken 0 [out.events]
          (getLogsLoop bk fuel (foundLogs ++ out.events)
            out.nextForwardToken reqToken (attempts + 1))

/-- cloudwatchlogs.go getLogsSince: runs the pagination loop from the
initial state (no logs, no tokens, zero attempts). -/
def getLogsSinceRun (bk : Backend) (fuel : Nat) :
    LoopTrace × Option LogsOutcome :=
  getLogsLoop bk fuel [] none none 0

/-- Result of ValidateLogs: the validator verdict, or an error propagated
from getLogsSince (Go returns (false, err)). -/
inductive ValidateOutcome where
  | ok (verdict : Bool)
  | err
deriving DecidableEq

/-- cloudwatchlogs.go ValidateLogs: fetches the logs and, on success, applies
the validator to the collected list. The Nat component counts how many times
the validator function is invoked. -/
def ValidateLogsRun (bk : Backend) (fuel : Nat)
    (validator : List String → Bool) : Option ValidateOutcome × Nat :=
  match getLogsSinceRun bk fuel with
  | (_, none) => (none, 0)
  | (_, some (.failure _)) => (some .err, 0)
  | (_, some (.success logs)) => (some (.ok (validator logs)), 1)

/-- cloudwatchlogs.go describeLogGroups backend semantics: the CloudWatch
Logs service is an external collaborator; DescribeLogGroups with a
LogGroupNamePrefix returns the existing log groups whose names start with
that prefix. -/
def strPfx : List Char → List Char → Bool
  | [], _ => true
  | _ :: _, [] => false
  | a :: as, b :: bs => a == b && strPfx as bs

/-- The DescribeLogGroups call as the source issues it: the name passed to
IsLogGroupExists is sent as the LogGroupNamePrefix filter, so the backend
answers with every existing group whose name has it as a prefix. -/
def describeLogGroups (existing : List String) (pfx : String) :
    List String :=
  existing.filter (fun g => strPfx pfx.data g.data)

/-- cloudwatchlogs.go IsLogGroupExists: false when client creation fails,
false when the DescribeLogGroups call fails, and otherwise true exactly when
the prefix query returns at least one log group. -/
def IsLogGroupExists (clientErr : Bool) (describeErr : Bool)
    (existing : List String) (logGroupName : String) : Bool :=
  if clientErr then false
  else if describeErr then false
  else decide ((describeLogGroups existing logGroupName).length > 0)

/-! ## Swap and mem metric runners (metric_value_benchmark package) -/

/-- status package: the closed status enumeration. -/
inductive Status where
  | SUCCESSFUL
  | FAILED
  | SKIPPED
deriving DecidableEq

/-- status package: a per-metric test result. -/
structure TestResult where
  Name : String
  Status : Status
deriving DecidableEq

/-- metric package: the statistic passed to the fetcher. -/
inductive Statistic where
  | AVERAGE
  | SUM
  | MINIMUM
  | MAXIMUM
  | SAMPLE_COUNT
deriving DecidableEq

/-- The metric value fetcher as an oracle: namespace, metric name, dimension
list and statistic to either an error or a sample sequence. float64 sample
values are modelled as rationals; the runners only compare them with zero. -/
abbrev Fetcher := String → String → List Dimension → Statistic →
  Except Unit (List ℚ)

/-- Modelled from the spec: isAllValuesGreaterThanOrEqualToZero, used by the
runners but defined outside src. Per the spec, a fetch qualifies only if the
sample sequence is non-empty and every value is at least zero. -/
def isAllValuesGreaterThanOrEqualToZero (metricName : String)
    (values : List ℚ) : Bool :=
  !values.isEmpty && values.all (fun v => decide (0 ≤ v))

/-- part_000 SwapTestRunner.validateSwapMetric: starts from a FAILED result,
resolves the single InstanceId instruction (propagating the GetDimensions
panic as none), returns FAILED when any instruction is unfulfilled or the
fetch errs or a check fails, and SUCCESSFUL otherwise. The Nat counts
fetcher invocations. The ns parameter is the package-level namespace
variable, defined outside src. -/
def validateSwapMetricRun (ns : String) (f : Factory) (fetch : Fetcher)
    (metricName : String) : Option TestResult × Nat :=
  let testResult : TestResult := ⟨metricName, Status.FAILED⟩
  match f.GetDimensions [⟨"InstanceId", UnknownDimensionValue⟩] with
  | none => (none, 0)
  | some (dims, failed) =>
    if failed.length > 0 then (some testResult, 0)
    else
      match fetch ns metricName dims Statistic.AVERAGE with
      | .error _ => (some testResult, 1)
      | .ok values =>
        if !(isAllValuesGreaterThanOrEqualToZero metricName values) then
          (some testResult, 1)
        else
          (some ⟨metricName, Status.SUCCESSFUL⟩, 1)

/-- part_001 MemTestRunner.validateMemMetric: the same shape as
validateSwapMetric, transcribed from its own source. -/
def validateMemMetricRun (ns : String) (f : Factory) (fetch : Fetcher)
    (metricName : String) : Option TestResult × Nat :=
  let testResult : TestResult := ⟨metricName, Status.FAILED⟩
  match f.GetDimensions [⟨"InstanceId", UnknownDimensionValue⟩] with
  | none => (none, 0)
  | some (dims, failed) =>
    if failed.length > 0 then (some testResult, 0)
    else
      match fetch ns metricName dims Statistic.AVERAGE with
      | .error _ => (some testResult, 1)
      | .ok values =>
        if !(isAllValuesGreaterThanOrEqualToZero metricName values) then
          (some testResult, 1)
        else
          (some ⟨metricName, Status.SUCCESSFUL⟩, 1)

/-! ## Concrete inputs used by witnesses and counterexamples -/

/-- A provider that answers every instruction with a full dimension. -/
def goodProvider : ProviderFun :=
  fun i => ⟨some i.Key, some "i-0123456789abcdef0"⟩

/-- A factory whose single applicable provider is goodProvider. -/
def wFactory : Factory := ⟨[goodProvider]⟩

/-- The instruction list the swap and mem runners build. -/
def wInstructions : List Instruction :=
  [⟨"InstanceId", UnknownDimensionValue⟩]

/-- A factory with no applicable providers. -/
def factoryNoProviders : Factory := ⟨[]⟩

/-- An instruction whose expected value is known: a literal is supplied. -/
def knownInstruction : Instruction := ⟨"host", ⟨some "host-literal"⟩⟩

/-- A fetcher that always answers with the single sample 100. -/
def constFetcher : Fetcher := fun _ _ _ _ => .ok [(100 : ℚ)]

/-- A backend that serves two non-empty pages and then repeats the token,
signalling the end of the stream. -/
def bkTwoPages : Backend := fun n _ =>
  if n == 0 then .ok ⟨["a", "b"], some "T1"⟩
  else if n == 1 then .ok ⟨["c"], some "T2"⟩
  else .ok ⟨[], some "T2"⟩

/-- A validator checking for the three expected messages. -/
def valThree : List String → Bool := fun l => l == ["a", "b", "c"]

/-- A backend that always reports ResourceNotFoundException. -/
def bkAllRnf : Backend := fun _ _ => .rnfErr

/-- A backend that fails with a non-retriable error on the first call. -/
def bkOtherErr : Backend := fun _ _ => .otherErr

/-- A backend whose responses always carry an absent NextForwardToken. -/
def bkAbsentToken : Backend := fun _ _ => .ok ⟨[], none⟩

/-! ## Lemmas about the dimension factory -/

/-- The log-free loop resolves exactly the instructions whose execution is
non-empty, in input order, and collects the others, in input order. -/
theorem getDimensionsNoLogAux_spec (f : Factory) :
    ∀ (instrs : List Instruction) (res : List Dimension)
      (unf : List Instruction),
    getDimensionsNoLogAux f instrs res unf =
      (res ++ ((instrs.filter fun i =>
          decide (f.executeInstruction i ≠ emptyDimension)).map
            f.executeInstruction),
       unf ++ (instrs.filter fun i =>
          decide (f.executeInstruction i = emptyDimension))) := by
  intro instrs
  induction instrs with
  | nil => intro res unf; simp [getDimensionsNoLogAux]
  | cons i rest ih =>
    intro res unf
    by_cases h : f.executeInstruction i = emptyDimension
    · simp [getDimensionsNoLogAux, h, ih]
    · simp [getDimensionsNoLogAux, h, ih]

/-- Whenever the faithful loop (with the logging dereferences) returns,
it returns exactly what the log-free loop computes. -/
theorem getDimensionsAux_some (f : Factory) :
    ∀ (instrs : List Instruction) (res : List Dimension)
      (unf : List Instruction) (out : List Dimension × List Instruction),
    getDimensionsAux f instrs res unf = some out →
    out = getDimensionsNoLogAux f instrs res unf := by
  intro instrs
  induction instrs with
  | nil =>
    intro res unf out h
    simp only [getDimensionsAux, Option.some.injEq] at h
    simp [getDimensionsNoLogAux, ← h]
  | cons i rest ih =>
    intro res unf out h
    simp only [getDimensionsAux] at h
    simp only [getDimensionsNoLogAux]
    rcases hdim : f.executeInstruction i with ⟨nm, vl⟩
    rw [hdim] at h
    cases nm with
    | none =>
      cases vl with
      | none => simp [emptyDimension] at h
      | some b => simp [emptyDimension] at h
    | some a =>
      cases vl with
      | none => simp [emptyDimension] at h
      | some b =>
        have hne : (⟨some a, some b⟩ : Dimension) ≠ emptyDimension := by
          simp [emptyDimension]
        rw [if_pos hne] at h
        rw [if_pos hne]
        exact ih (res ++ [⟨some a, some b⟩]) unf out h

/-! ## Lemmas about the logs fetcher loop -/

/-- A successful run of the pagination loop returns the initial accumulator
followed by the concatenation, in call order, of the event pages recorded in
its trace. -/
theorem getLogsLoop_success_logs (bk : Backend) :
    ∀ (fuel : Nat) (foundLogs : List String)
      (nextToken paramsToken : Option String) (attempts : Nat)
      (tr : LoopTrace) (res : List String),
    getLogsLoop bk fuel foundLogs nextToken paramsToken attempts =
      (tr, some (.success res)) →
    res = foundLogs ++ tr.pages.flatten := by
  intro fuel
  induction fuel with
  | zero =>
    intro foundLogs nextToken paramsToken attempts tr res h
    simp [getLogsLoop] at h
  | succ fuel ih =>
    intro foundLogs nextToken paramsToken attempts tr res h
    simp only [getLogsLoop] at h
    split at h
    · split at h
      · rcases hrec : getLogsLoop bk fuel foundLogs nextToken
            (if nextToken.isSome then nextToken else paramsToken)
            (attempts + 1) with ⟨tr2, out2⟩
        rw [hrec] at h
        simp only [tracePrepend, Prod.mk.injEq] at h
        obtain ⟨htr, hout⟩ := h
        rw [hout] at hrec
        have hres := ih foundLogs nextToken
          (if nextToken.isSome then nextToken else paramsToken)
          (attempts + 1) tr2 res hrec
        rw [← htr]
        simpa using hres
      · simp at h
    · simp at h
    · rename_i out hbk
      split at h
      · simp only [Prod.mk.injEq, Option.some.injEq,
          LogsOutcome.success.injEq] at h
        obtain ⟨htr, hout⟩ := h
        rw [← htr, ← hout]
        simp
      · rcases hrec : getLogsLoop bk fuel (foundLogs ++ out.events)
            out.nextForwardToken
            (if nextToken.isSome then nextToken else paramsToken)
            (attempts + 1) with ⟨tr2, out2⟩
        rw [hrec] at h
        simp only [tracePrepend, Prod.mk.injEq] at h
        obtain ⟨htr, hout⟩ := h
        rw [hout] at hrec
        have hres := ih (foundLogs ++ out.events) out.nextForwardToken
          (if nextToken.isSome then nextToken else paramsToken)
          (attempts + 1) tr2 res hrec
        rw [← htr]
        simpa using hres

/-! ## Claim theorems -/

/-- C1: For every instruction list given to Factory.GetDimensions, the two
outputs partition the input: the resolved and unfulfilled counts add up to
the input length, the unfulfilled output is exactly the sublist of
instructions whose execution yields the zero dimension, the resolved output
is, in input order, the executed dimension of each satisfied instruction,
and whatever the faithful function (with its logging dereferences) returns
agrees with these outputs. -/
theorem getDimensions_partitions_input (f : Factory)
    (instructions : List Instruction) :
    (f.GetDimensionsNoLog instructions).1.length +
        (f.GetDimensionsNoLog instructions).2.length = instructions.length
    ∧ (f.GetDimensionsNoLog instructions).1 =
        ((instructions.filter fun i =>
            decide (f.executeInstruction i ≠ emptyDimension)).map
          f.executeInstruction)
    ∧ (f.GetDimensionsNoLog instructions).2 =
        (instructions.filter fun i =>
          decide (f.executeInstruction i = emptyDimension))
    ∧ ∀ out, f.GetDimensions instructions = some out →
        out = f.GetDimensionsNoLog instructions := by
  have hspec := getDimensionsNoLogAux_spec f instructions [] []
  refine ⟨?_, ?_, ?_, ?_⟩
  · rw [Factory.GetDimensionsNoLog, hspec]
    simp only [List.nil_append, List.length_map]
    have hq : (fun i => decide (f.executeInstruction i = emptyDimension)) =
        (fun i => !decide (f.executeInstruction i ≠ emptyDimension)) := by
      funext i
      by_cases h : f.executeInstruction i = emptyDimension <;> simp [h]
    rw [hq,
      ← List.length_eq_length_filter_add (l := instructions)
        (fun i => decide (f.executeInstruction i ≠ emptyDimension))]
  · rw [Factory.GetDimensionsNoLog, hspec]
    simp
  · rw [Factory.GetDimensionsNoLog, hspec]
    simp
  · intro out h
    rw [Factory.GetDimensions] at h
    rw [Factory.GetDimensionsNoLog]
    exact getDimensionsAux_some f instructions [] [] out h

/-- C1 witness: a factory whose provider resolves the InstanceId
instruction; the faithful GetDimensions completes and agrees with the
log-free outputs. -/
theorem getDimensions_partitions_input_witness :
    (([⟨some "InstanceId", some "i-0123456789abcdef0"⟩], []) :
        List Dimension × List Instruction) =
      wFactory.GetDimensionsNoLog wInstructions :=
  (getDimensions_partitions_input wFactory wInstructions).2.2.2
    ([⟨some "InstanceId", some "i-0123456789abcdef0"⟩], []) (by decide)

/-- C9: IsKnown returns true exactly when the Value pointer is nil, and the
value produced by UnknownDimensionValue satisfies IsKnown = true. -/
theorem isKnown_iff_value_nil :
    (∀ d : ExpectedDimensionValue, d.IsKnown = true ↔ d.Value = none)
    ∧ UnknownDimensionValue.IsKnown = true := by
  constructor
  · intro d
    cases d with
    | mk v => cases v <;> simp [ExpectedDimensionValue.IsKnown]
  · decide

/-- C9 witness: the iff instantiated at UnknownDimensionValue. -/
theorem isKnown_iff_value_nil_witness :
    UnknownDimensionValue.Value = none :=
  (isKnown_iff_value_nil.1 UnknownDimensionValue).mp isKnown_iff_value_nil.2

/-- C2 counterexample: knownInstruction carries a known expected value (the
literal host-literal), yet with an empty provider set the Factory does not
resolve it to (host, host-literal): executeInstruction consults the (empty)
provider list and yields the zero dimension, the instruction is unfulfilled,
and GetDimensions does not even complete (the unfulfilled log line panics);
so resolution is neither direct nor independent of the provider set. -/
theorem known_value_not_resolved_without_providers :
    factoryNoProviders.executeInstruction knownInstruction = emptyDimension
    ∧ factoryNoProviders.GetDimensions [knownInstruction] = none
    ∧ emptyDimension ≠ Dimension.mk (some "host") (some "host-literal") :=
  ⟨by decide, by decide, by decide⟩

/-- C2 amended: for an instruction whose expected value is known, the
Factory still consults the providers like any other instruction: with no
providers the execution yields the zero dimension (unfulfilled), a first
provider with a non-zero answer determines the result, and a first provider
with a zero answer defers to the rest, so the outcome depends on the
provider set. -/
theorem known_value_resolution_goes_through_providers
    (instr : Instruction) (hknown : instr.Value.Value.isSome = true)
    (p : ProviderFun) (ps : List ProviderFun) :
    Factory.executeInstruction ⟨[]⟩ instr = emptyDimension
    ∧ (p instr ≠ emptyDimension →
        Factory.executeInstruction ⟨p :: ps⟩ instr = p instr)
    ∧ (p instr = emptyDimension →
        Factory.executeInstruction ⟨p :: ps⟩ instr =
          Factory.executeInstruction ⟨ps⟩ instr) := by
  refine ⟨rfl, ?_, ?_⟩
  · intro hp
    simp [Factory.executeInstruction, executeInstructionAux, hp]
  · intro hp
    simp [Factory.executeInstruction, executeInstructionAux, hp]

/-- C2 amended witness: the known-valued knownInstruction with goodProvider
heading the provider list resolves to the answer of goodProvider. -/
theorem known_value_resolution_goes_through_providers_witness :
    Factory.executeInstruction ⟨[goodProvider]⟩ knownInstruction =
      goodProvider knownInstruction :=
  (known_value_resolution_goes_through_providers knownInstruction (by decide)
      goodProvider []).2.1 (by decide)

/-- C4 (the claim states the spec intent; the code is defective): on an
instruction list containing an instruction that no provider resolves,
GetDimensions does not complete: the log call of the unfulfilled branch
dereferences both nil fields of the zero dimension, a nil-pointer panic,
modelled by the value none. -/
theorem unfulfilled_instruction_log_dereference_panics :
    factoryNoProviders.GetDimensions wInstructions = none := by decide

/-- C5: for a measured metric of the swap runner (no metric there carries
explicit bounds) whose single InstanceId instruction resolves and whose
fetch succeeds, the verdict is SUCCESSFUL when the sample sequence is
non-empty with every value at least zero, FAILED when some value is
negative, and FAILED when the sequence is empty. -/
theorem swap_verdict_on_samples (ns : String) (f : Factory)
    (fetch : Fetcher) (metricName : String) (dims : List Dimension)
    (values : List ℚ)
    (hdims : f.GetDimensions [⟨"InstanceId", UnknownDimensionValue⟩] =
      some (dims, []))
    (hfetch : fetch ns metricName dims Statistic.AVERAGE = .ok values) :
    ((values ≠ [] ∧ ∀ v ∈ values, 0 ≤ v) →
      validateSwapMetricRun ns f fetch metricName =
        (some ⟨metricName, Status.SUCCESSFUL⟩, 1))
    ∧ ((∃ v ∈ values, v < 0) →
      validateSwapMetricRun ns f fetch metricName =
        (some ⟨metricName, Status.FAILED⟩, 1))
    ∧ (values = [] →
      validateSwapMetricRun ns f fetch metricName =
        (some ⟨metricName, Status.FAILED⟩, 1)) := by
  have hrun : validateSwapMetricRun ns f fetch metricName =
      (if !(isAllValuesGreaterThanOrEqualToZero metricName values) then
        (some ⟨metricName, Status.FAILED⟩, 1)
      else (some ⟨metricName, Status.SUCCESSFUL⟩, 1)) := by
    simp only [validateSwapMetricRun, hdims, hfetch]
    simp
  refine ⟨?_, ?_, ?_⟩
  · rintro ⟨hne, hall⟩
    have hA : isAllValuesGreaterThanOrEqualToZero metricName values =
        true := by
      simp [isAllValuesGreaterThanOrEqualToZero, List.isEmpty_iff, hne]
      intro v hv
      exact hall v hv
    rw [hrun, hA]
    simp
  · rintro ⟨v, hv, hneg⟩
    have hA : isAllValuesGreaterThanOrEqualToZero metricName values =
        false := by
      simp [isAllValuesGreaterThanOrEqualToZero, List.isEmpty_iff]
      intro hne
      exact ⟨v, hv, hneg⟩
    rw [hrun, hA]
    simp
  · intro hnil
    have hA : isAllValuesGreaterThanOrEqualToZero metricName values =
        false := by
      simp [isAllValuesGreaterThanOrEqualToZero, hnil]
    rw [hrun, hA]
    simp

/-- C5 witness: the resolving factory with a fetch answering the single
sample 100 gives the SUCCESSFUL verdict. -/
theorem swap_verdict_on_samples_witness :
    validateSwapMetricRun "ns" wFactory constFetcher "swap_used" =
      (some ⟨"swap_used", Status.SUCCESSFUL⟩, 1) :=
  (swap_verdict_on_samples "ns" wFactory constFetcher "swap_used"
      [⟨some "InstanceId", some "i-0123456789abcdef0"⟩] [(100 : ℚ)]
      (by decide) rfl).1 ⟨by decide, by decide⟩

/-- C7 (the claim states the spec policy; the code is defective): with no
applicable provider the InstanceId instruction is unfulfilled; both runners
then panic inside GetDimensions (modelled none) instead of returning the
failed TestResult, and the fetcher is never invoked (invocation count 0). -/
theorem unfulfilled_dimensions_panic_before_failed_result :
    validateSwapMetricRun "ns" factoryNoProviders constFetcher "swap_used" =
      (none, 0)
    ∧ validateMemMetricRun "ns" factoryNoProviders constFetcher "mem_used" =
      (none, 0) :=
  ⟨by decide, by decide⟩

/-- C3 counterexample: against a backend whose responses carry an absent
NextForwardToken, the claim says the fetcher makes no further GetLogEvents
calls after the first response, so every run would record exactly one call;
the break of the code additionally requires a present saved token and a
present, equal response token, so the loop calls again: with fuel 2 the
trace already records two calls. -/
theorem absent_token_does_not_stop_pagination :
    (getLogsSinceRun bkAbsentToken 2).1.calls.length = 2 := by decide

/-- C3 amended: pagination terminates on a matched saved token: whenever the
token saved from the previous response is present and the backend answers
with a NextForwardToken equal to it, getLogsSince returns right after that
response, its trace recording exactly that one call; an absent
NextForwardToken does not terminate pagination. -/
theorem matched_token_stops_pagination (bk : Backend) (fuel : Nat)
    (foundLogs : List String) (t : String) (paramsToken : Option String)
    (attempts : Nat) (out : GetLogEventsOutput)
    (hbk : bk attempts (some t) = .ok out)
    (htok : out.nextForwardToken = some t) :
    getLogsLoop bk (fuel + 1) foundLogs (some t) paramsToken attempts =
      (⟨[some t], [out.events], 0⟩,
        some (.success (foundLogs ++ out.events))) := by
  simp only [getLogsLoop]
  simp [hbk, htok]

/-- C3 amended witness: the two-page backend at the state reached after its
second response, where the saved token T2 is repeated by the backend. -/
theorem matched_token_stops_pagination_witness :
    getLogsLoop bkTwoPages (4 + 1) ["a", "b", "c"] (some "T2") (some "T1")
      2 =
      (⟨[some "T2"], [[]], 0⟩,
        some (.success (["a", "b", "c"] ++ []))) :=
  matched_token_stops_pagination bkTwoPages 4 ["a", "b", "c"] "T2"
    (some "T1") 2 ⟨[], some "T2"⟩ rfl rfl

/-- C6: the retry policy of getLogsSince: a call failing with
ResourceNotFoundException is retried, after one one-minute sleep, while the
post-call value of the attempts counter is at most allowedRetries = 5; once
that budget is exhausted the error is returned immediately with the logs so
far, as it is for any other failure; and with every call failing with
ResourceNotFoundException the run makes exactly 6 calls (the first plus 5
retries), sleeps 5 times, and returns the error. -/
theorem getLogsSince_retry_policy (bk : Backend) (fuel : Nat)
    (foundLogs : List String) (nextToken paramsToken : Option String)
    (attempts : Nat) :
    (bk attempts (if nextToken.isSome then nextToken else paramsToken) =
        .rnfErr →
      attempts + 1 ≤ allowedRetries →
      getLogsLoop bk (fuel + 1) foundLogs nextToken paramsToken attempts =
        tracePrepend (if nextToken.isSome then nextToken else paramsToken)
          1 []
          (getLogsLoop bk fuel foundLogs nextToken
            (if nextToken.isSome then nextToken else paramsToken)
            (attempts + 1)))
    ∧ (bk attempts (if nextToken.isSome then nextToken else paramsToken) =
        .rnfErr →
      ¬ attempts + 1 ≤ allowedRetries →
      getLogsLoop bk (fuel + 1) foundLogs nextToken paramsToken attempts =
        (⟨[if nextToken.isSome then nextToken else paramsToken], [], 0⟩,
          some (.failure foundLogs)))
    ∧ (bk attempts (if nextToken.isSome then nextToken else paramsToken) =
        .otherErr →
      getLogsLoop bk (fuel + 1) foundLogs nextToken paramsToken attempts =
        (⟨[if nextToken.isSome then nextToken else paramsToken], [], 0⟩,
          some (.failure foundLogs)))
    ∧ getLogsSinceRun bkAllRnf 10 =
        (⟨List.replicate 6 none, [], 5⟩, some (.failure [])) := by
  refine ⟨?_, ?_, ?_, by decide⟩
  · intro hbk hle
    simp only [getLogsLoop]
    simp [hbk, hle]
  · intro hbk hgt
    simp only [getLogsLoop]
    simp [hbk, hgt]
  · intro hbk
    simp only [getLogsLoop]
    simp [hbk]

/-- C6 witness: a first call failing with an error other than
ResourceNotFoundException returns immediately. -/
theorem getLogsSince_retry_policy_witness :
    getLogsLoop bkOtherErr (0 + 1) [] none none 0 =
      (⟨[none], [], 0⟩, some (.failure [])) :=
  (getLogsSince_retry_policy bkOtherErr 0 [] none none 0).2.2.1 rfl

/-- C8: when the log fetch succeeds, ValidateLogs collects every event
message of every page, in call order, into one list (the concatenation of
the pages of the run trace), invokes the validator exactly once on that
complete list, and returns its verdict. -/
theorem validateLogs_single_predicate_on_all_pages (bk : Backend)
    (fuel : Nat) (validator : List String → Bool) (tr : LoopTrace)
    (logs : List String)
    (h : getLogsSinceRun bk fuel = (tr, some (.success logs))) :
    ValidateLogsRun bk fuel validator = (some (.ok (validator logs)), 1)
    ∧ logs = tr.pages.flatten := by
  constructor
  · simp only [ValidateLogsRun, h]
  · rw [getLogsSinceRun] at h
    have := getLogsLoop_success_logs bk fuel [] none none 0 tr logs h
    simpa using this

/-- C8 witness: the two-page backend; the validator sees the three messages
of the two non-empty pages once, in backend order. -/
theorem validateLogs_single_predicate_on_all_pages_witness :
    ValidateLogsRun bkTwoPages 5 valThree =
      (some (.ok (valThree ["a", "b", "c"])), 1)
    ∧ ["a", "b", "c"] =
      (LoopTrace.mk [none, some "T1", some "T2"]
        [["a", "b"], ["c"], []] 0).pages.flatten :=
  validateLogs_single_predicate_on_all_pages bkTwoPages 5 valThree
    ⟨[none, some "T1", some "T2"], [["a", "b"], ["c"], []], 0⟩
    ["a", "b", "c"] (by decide)

/-- C10: IsLogGroupExists returns false when client creation fails and when
the DescribeLogGroups call fails, and returns true whenever at least one
existing log group has the queried name as a prefix of its name, whether or
not any name matches exactly. -/
theorem isLogGroupExists_prefix_and_errors (existing : List String)
    (name : String) :
    (∀ describeErr,
      IsLogGroupExists true describeErr existing name = false)
    ∧ IsLogGroupExists false true existing name = false
    ∧ ((∃ g ∈ existing, strPfx name.data g.data = true) →
        IsLogGroupExists false false existing name = true) := by
  refine ⟨fun _ => rfl, rfl, ?_⟩
  rintro ⟨g, hg, hpfx⟩
  have hmem : g ∈ describeLogGroups existing name :=
    List.mem_filter.mpr ⟨hg, hpfx⟩
  simp [IsLogGroupExists]
  exact List.length_pos_of_mem hmem

/-- C10 witness: a group exists whose name strictly extends the queried
name, and the query answers true; with a failed client it answers false. -/
theorem isLogGroupExists_prefix_and_errors_witness :
    IsLogGroupExists false false ["test-group-123"] "test-group" = true
    ∧ IsLogGroupExists true false ["test-group-123"] "test-group" =
      false :=
  ⟨(isLogGroupExists_prefix_and_errors ["test-group-123"] "test-group").2.2
      (by decide),
   (isLogGroupExists_prefix_and_errors ["test-group-123"] "test-group").1
      false⟩
